import Mathlib

/-!
# Shallow embedding of the `cuesheetgo` parser (src/cuesheet.go)

This file embeds the cue-sheet parser of the repository into Lean:
`Parse` reads a list of input lines and either returns a `CueSheet`,
a descriptive `ParseError`, or `panicked` (modelling a Go runtime
panic such as an out-of-range slice index).  All definitions follow
`src/cuesheet.go`; divergent library behaviour of Go's standard
library (`strings`, `strconv.Atoi`, `fmt.Sscanf`) is modelled in the
`go*` / `scan*` helpers below, with the relevant scanning rules noted
in comments.
-/

namespace Cuesheetgo

/-! ## Go string primitives -/

/-- The characters trimmed from lines and values: space, double quote,
tab and newline (constant `trimChars` in the source). -/
def isTrimChar (c : Char) : Bool :=
  c = ' ' || c = '"' || c = '\t' || c = '\n'

/-- `strings.Trim(s, trimChars)`: remove leading and trailing characters
belonging to the trim set. -/
def goTrim (s : String) : String :=
  String.mk (((s.toList.dropWhile isTrimChar).reverse.dropWhile isTrimChar).reverse)

/-- Whitespace for `strings.Fields` (`unicode.IsSpace`).  The ASCII
space characters plus NEL and NBSP; the remaining Unicode space runes
behave identically and are not exercised by the development. -/
def isGoSpace (c : Char) : Bool :=
  c = ' ' || c = '\t' || c = '\n' || c = '\x0b' || c = '\x0c' || c = '\x0d' ||
  c = '\u0085' || c = ' '

/-- Accumulator-based splitter behind `goFields`. -/
def fieldsAux : List Char → List Char → List String
  | [], acc => if acc.isEmpty then [] else [String.mk acc.reverse]
  | c :: cs, acc =>
    if isGoSpace c then
      if acc.isEmpty then fieldsAux cs [] else String.mk acc.reverse :: fieldsAux cs []
    else fieldsAux cs (c :: acc)

/-- `strings.Fields`: split around runs of whitespace; no empty fields. -/
def goFields (s : String) : List String :=
  fieldsAux s.toList []

/-- `strings.ToUpper`, restricted to ASCII letters (the command keywords
compared against are all ASCII). -/
def goToUpper (s : String) : String :=
  String.mk (s.toList.map fun c =>
    if 'a' ≤ c && c ≤ 'z' then Char.ofNat (c.toNat - 32) else c)

/-- `strings.Join(parameters, " ")`. -/
def goJoin (parts : List String) : String :=
  String.intercalate " " parts

/-! ## Go numeric scanning -/

/-- Decimal value of an ASCII digit. -/
def digitVal (c : Char) : Nat := c.toNat - 48

/-- Decimal value of a digit list, most significant first. -/
def digitsVal (ds : List Char) : Nat :=
  ds.foldl (fun acc c => acc * 10 + digitVal c) 0

/-- The signed value of a digit run. -/
def signedVal (neg : Bool) (ds : List Char) : Int :=
  if neg then -(digitsVal ds : Int) else (digitsVal ds : Int)

/-- Digit-run part of `strconv.Atoi`: one or more ASCII digits, with
the signed result required to fit a 64-bit signed integer. -/
def goAtoiCore (neg : Bool) (ds : List Char) : Option Int :=
  if ds.isEmpty then none
  else if ds.all Char.isDigit then
    if -(2 ^ 63) ≤ signedVal neg ds ∧ signedVal neg ds < 2 ^ 63 then some (signedVal neg ds)
    else none
  else none

/-- `strconv.Atoi`: an optional single sign followed by one or more
ASCII digits, consuming the whole string. -/
def goAtoi (s : String) : Option Int :=
  if s.toList.head? = some '+' then goAtoiCore false s.toList.tail
  else if s.toList.head? = some '-' then goAtoiCore true s.toList.tail
  else goAtoiCore false s.toList

/-- One `%2d` operand of `fmt.Sscanf`: an optional sign then digits, at
most two runes in total (the width limit counts the sign), requiring at
least one digit; scanning stops at the width limit or the first
non-digit, leaving the rest of the input unconsumed. -/
def scanD2 : List Char → Option (Int × List Char)
  | '+' :: c :: rest => if c.isDigit then some ((digitVal c : Int), rest) else none
  | '-' :: c :: rest => if c.isDigit then some (-(digitVal c : Int), rest) else none
  | ['+'] => none
  | ['-'] => none
  | c1 :: c2 :: rest =>
    if c1.isDigit then
      if c2.isDigit then some ((digitVal c1 * 10 + digitVal c2 : Int), rest)
      else some ((digitVal c1 : Int), c2 :: rest)
    else none
  | [c] => if c.isDigit then some ((digitVal c : Int), []) else none
  | [] => none

/-- `fmt.Sscanf(s, "%2d:%2d:%2d", &m, &sec, &f)`: three width-2 decimal
operands separated by literal colons.  `Sscanf` does not require the
whole input to be consumed, so trailing characters after the third
operand are ignored. -/
def sscanfTimestamp (s : String) : Option (Int × Int × Int) :=
  match scanD2 s.toList with
  | none => none
  | some (m, rest) =>
    match rest with
    | ':' :: rest2 =>
      match scanD2 rest2 with
      | none => none
      | some (sec, rest3) =>
        match rest3 with
        | ':' :: rest4 =>
          match scanD2 rest4 with
          | none => none
          | some (f, _) => some (m, sec, f)
        | _ => none
    | _ => none

/-- Hexadecimal digit as accepted by `fmt`'s `%X` scanning (both cases). -/
def isGoHexDigit (c : Char) : Bool :=
  c.isDigit || ('a' ≤ c && c ≤ 'f') || ('A' ≤ c && c ≤ 'F')

/-- Value of a hexadecimal digit. -/
def hexDigitVal (c : Char) : Nat :=
  if c.isDigit then c.toNat - 48
  else if 'a' ≤ c && c ≤ 'f' then c.toNat - 87
  else c.toNat - 55

/-- Value of a hexadecimal digit list, most significant first. -/
def hexVal (ds : List Char) : Nat :=
  ds.foldl (fun acc c => acc * 16 + hexDigitVal c) 0

/-- `fmt.Sscanf(s, "%X", &u)` into a `uint32`: consumes the maximal
leading run of hexadecimal digits (no sign and no `0x` prefix is
accepted for an unsigned verb), requires at least one digit, rejects
values that overflow 32 bits, and ignores whatever follows the run. -/
def scanHexU32 (s : String) : Option Nat :=
  if (s.toList.takeWhile isGoHexDigit).isEmpty then none
  else if hexVal (s.toList.takeWhile isGoHexDigit) < 4294967296 then
    some (hexVal (s.toList.takeWhile isGoHexDigit))
  else none

/-! ## Data model (types of src/cuesheet.go) -/

/-- A command descriptor (`Command` struct): name plus arity contract.
Go zero values of the absent fields are `0`. -/
structure Command where
  name : String
  exactParams : Nat := 0
  minParams : Nat := 0
deriving DecidableEq

def FileCommand : Command := { name := "FILE", minParams := 2 }
def PerformerCommand : Command := { name := "PERFORMER", minParams := 1 }
def TitleCommand : Command := { name := "TITLE", minParams := 1 }
def TrackCommand : Command := { name := "TRACK", exactParams := 2 }
def TrackIndexCommand : Command := { name := "INDEX", exactParams := 2 }
def RemCommand : Command := { name := "REM", minParams := 1 }
def RemGenreCommand : Command := { name := "GENRE", minParams := 1 }
def RemDateCommand : Command := { name := "DATE", minParams := 1 }
def RemDiscIDCommand : Command := { name := "DISCID", exactParams := 1 }

/-- An index point: frame number and timestamp.  The timestamp is a Go
`time.Duration`, i.e. an integer count of nanoseconds. -/
structure IndexPoint where
  frame : Int
  timestamp : Int
deriving DecidableEq

/-- The zero `IndexPoint` (`IndexPoint{}` in Go). -/
def ipZero : IndexPoint := ⟨0, 0⟩

/-- A single track.  `index01` is a plain value whose unset state is the
zero `IndexPoint`; `index00` is a pointer, modelled as an `Option`. -/
structure Track where
  title : String
  ttype : String
  index00 : Option IndexPoint
  index01 : IndexPoint
deriving DecidableEq

/-- The zero `Track` (`var track Track` in Go). -/
def trackZero : Track := ⟨"", "", none, ipZero⟩

/-- The accumulating cue-sheet document.  `AudioFormat` is a string type
in Go, so `format` is a `String` here; `discID` is a `uint32` modelled
as a `Nat` kept below `2^32` by the scanner. -/
structure CueSheet where
  albumPerformer : String
  albumTitle : String
  remarks : List String
  date : String
  discID : Nat
  format : String
  fileName : String
  genre : String
  tracks : List Track
deriving DecidableEq

/-- The initial document (`&CueSheet{Tracks: []*Track{}}`). -/
def emptySheet : CueSheet := ⟨"", "", [], "", 0, "", "", "", []⟩

/-! ## Errors and results -/

/-- The distinct error shapes produced by the parser, with the values
interpolated into the Go error messages carried as data.  `wrap`
models a `fmt.Errorf("<context>: %w", err)` layer, carrying the literal
context text. -/
inductive ParseError where
  | fieldAlreadySet (current : String)
  | expectedParams (expected got : Nat)
  | minParams (expected got : Nat)
  | invalidFileFormat (got : String)
  | atoiError (s : String)
  | expectedIndexNumber (got : Int)
  | timestampError
  | expectedDigits (expected got : Nat)
  | expectedTrackNumber (expected got : Int)
  | discIDLength (got : Nat)
  | hexParseError
  | unexpectedCommand (cmd : String)
  | missingFileName
  | missingFileFormat
  | missingTracks
  | missingTrackType
  | overlappingIndices (curr next : IndexPoint)
  | cmdContext (cmd : String) (e : ParseError)
  | lineContext (lineNr : Nat) (line : String) (e : ParseError)
  | wrap (context : String) (e : ParseError)
deriving DecidableEq

/-- Strip every wrapping layer, exposing the root cause of an error
(the innermost `%w` target of the Go error chain). -/
def ParseError.root : ParseError → ParseError
  | .cmdContext _ e => e.root
  | .lineContext _ _ e => e.root
  | .wrap _ e => e.root
  | e => e

/-- Outcome of running parser code: a value, a returned error, or a Go
runtime panic (out-of-range slice index). -/
inductive GoRes (α : Type) where
  | ok (val : α)
  | err (e : ParseError)
  | panicked
deriving DecidableEq

/-! ## Field assignment -/

/-- `assignValue[T comparable]`: assign `val` to a field currently
holding `fld`, failing when the field differs from its type's zero
value.  Go obtains the zero value by reflection and formats the current
value with `%v`; here the zero value and the renderer are passed
explicitly at each call site. -/
def assignValue {α : Type} [DecidableEq α] (zero : α) (render : α → String)
    (val fld : α) : Except ParseError α :=
  if fld ≠ zero then Except.error (ParseError.fieldAlreadySet (render fld))
  else Except.ok val

/-- `parseString`: trim the value, then assign it to a string field
(whose zero value is the empty string). -/
def parseString (val fld : String) : Except ParseError String :=
  assignValue "" (fun s => s) (goTrim val) fld

/-- `(*Command).validateParameters`: exact-arity check when
`ExactParams > 0`, then minimum-arity check when `MinParams > 0`. -/
def validateParameters (cmd : Command) (parameters : Nat) : Option ParseError :=
  if cmd.exactParams > 0 ∧ parameters ≠ cmd.exactParams then
    some (ParseError.expectedParams cmd.exactParams parameters)
  else if cmd.minParams > 0 ∧ parameters < cmd.minParams then
    some (ParseError.minParams cmd.minParams parameters)
  else none

/-- Replace the last element of a track list (the Go code mutates the
track behind `c.Tracks[len(c.Tracks)-1]`). -/
def updateLast (f : Track → Track) : List Track → List Track
  | [] => []
  | [t] => [f t]
  | t :: rest => t :: updateLast f rest

/-- Rendering of an `IndexPoint` for the `fieldAlreadySet` payload.
Go formats the struct with `%v` (which renders the duration in
human-readable form); the exact text is immaterial to every claim, so a
canonical frame/nanosecond rendering is used. -/
def showIndexPoint (ip : IndexPoint) : String :=
  "(" ++ toString ip.frame ++ " " ++ toString ip.timestamp ++ ")"

/-! ## Command handlers -/

/-- `(*CueSheet).parseFile`: arity (at least 2 in this version of the
code — `FileCommand` declares `MinParams: 2`, not `ExactParams`), the
trailing parameter must be one of the five audio formats, then format
and file name are assigned at most once each. -/
def parseFile (c : CueSheet) (parameters : List String) : GoRes CueSheet :=
  match validateParameters FileCommand parameters.length with
  | some e => .err (.wrap "invalid FILE parameters" e)
  | none =>
    match parameters.getLast? with
    | none => .panicked
    | some format =>
      if format = "WAVE" ∨ format = "MOTOROLA" ∨ format = "BINARY" ∨
          format = "AIFF" ∨ format = "MP3" then
        match assignValue "" (fun s => s) format c.format with
        | .error e => .err (.wrap "error parsing FILE format" e)
        | .ok fv =>
          match parseString (goJoin parameters.dropLast) c.fileName with
          | .error e => .err (.wrap "error parsing FILE name" e)
          | .ok nv => .ok { c with format := fv, fileName := nv }
      else .err (.invalidFileFormat format)

/-- `(*CueSheet).parsePerformer`. -/
def parsePerformer (c : CueSheet) (parameters : List String) : GoRes CueSheet :=
  match validateParameters PerformerCommand parameters.length with
  | some e => .err (.wrap "invalid PERFORMER parameters" e)
  | none =>
    match parseString (goJoin parameters) c.albumPerformer with
    | .error e => .err (.wrap "error parsing PERFORMER parameters" e)
    | .ok v => .ok { c with albumPerformer := v }

/-- `(*CueSheet).isNextTrack`: parse the number with `strconv.Atoi`,
require the token to be exactly two bytes long, then require the number
to equal the running track count plus one.  (The length check runs only
after a successful `Atoi`, so the token is ASCII and its character
count equals its byte count.) -/
def isNextTrack (c : CueSheet) (nr : String) : Option ParseError :=
  match goAtoi nr with
  | none => some (.wrap "failed to parse track number" (.atoiError nr))
  | some trackNr =>
    if nr.length ≠ 2 then some (.expectedDigits 2 nr.length)
    else if trackNr ≠ (c.tracks.length : Int) + 1 then
      some (.expectedTrackNumber ((c.tracks.length : Int) + 1) trackNr)
    else none

/-- `(*CueSheet).parseTrack`: arity (exactly 2), track-number state
machine, then the type is assigned into a fresh zero track, which is
appended. -/
def parseTrack (c : CueSheet) (parameters : List String) : GoRes CueSheet :=
  match validateParameters TrackCommand parameters.length with
  | some e => .err (.wrap "invalid TRACK parameters" e)
  | none =>
    match parameters with
    | nr :: typ :: _ =>
      match isNextTrack c nr with
      | some e => .err (.wrap "invalid track number" e)
      | none =>
        match parseString typ trackZero.ttype with
        | .error e => .err (.wrap "error parsing track type" e)
        | .ok tv => .ok { c with tracks := c.tracks ++ [{ trackZero with ttype := tv }] }
    | _ => .panicked

/-- `(*CueSheet).parseTrackIndex`: arity (exactly 2), index number must
be 0 or 1, timestamp token scanned as `%2d:%2d:%2d`, then the point is
stored on the last track — `c.Tracks[len(c.Tracks)-1]` panics when no
track exists yet.  For index 0 the Go code first resets `Index00` to a
fresh zero-valued pointer and only then runs `assignValue` against it,
so that at-most-once check always sees the zero value. -/
def parseTrackIndex (c : CueSheet) (parameters : List String) : GoRes CueSheet :=
  match validateParameters TrackIndexCommand parameters.length with
  | some e => .err (.wrap "invalid TRACK INDEX parameters" e)
  | none =>
    match parameters with
    | nr :: indexPoint :: _ =>
      match goAtoi nr with
      | none => .err (.wrap "failed to parse index number" (.atoiError nr))
      | some indexNr =>
        if indexNr ≠ 0 ∧ indexNr ≠ 1 then .err (.expectedIndexNumber indexNr)
        else
          match sscanfTimestamp indexPoint with
          | none => .err (.wrap "error parsing timestamp and frame" .timestampError)
          | some (minutes, seconds, frames) =>
            match c.tracks.getLast? with
            | none => .panicked
            | some lastTrack =>
              if indexNr = 0 then
                match assignValue ipZero showIndexPoint
                    ⟨frames, minutes * 60000000000 + seconds * 1000000000⟩ ipZero with
                | .ok v => .ok { c with tracks := updateLast (fun t => { t with index00 := some v }) c.tracks }
                | .error e => .err e
              else
                match assignValue ipZero showIndexPoint
                    ⟨frames, minutes * 60000000000 + seconds * 1000000000⟩ lastTrack.index01 with
                | .ok v => .ok { c with tracks := updateLast (fun t => { t with index01 := v }) c.tracks }
                | .error e => .err e
    | _ => .panicked

/-- `(*CueSheet).parseTitle`: with no track yet, the joined parameters
are assigned to the album title; afterwards they are assigned to the
most recently declared track's title. -/
def parseTitle (c : CueSheet) (parameters : List String) : GoRes CueSheet :=
  match validateParameters TitleCommand parameters.length with
  | some e => .err (.wrap "invalid TITLE parameters" e)
  | none =>
    if c.tracks.length = 0 then
      match parseString (goJoin parameters) c.albumTitle with
      | .error e => .err (.wrap "error parsing album TITLE" e)
      | .ok v => .ok { c with albumTitle := v }
    else
      match c.tracks.getLast? with
      | none => .panicked
      | some currentTrack =>
        match parseString (goJoin parameters) currentTrack.title with
        | .error e =>
          .err (.wrap ("error parsing track " ++ toString (c.tracks.length - 1) ++ " TITLE") e)
        | .ok v => .ok { c with tracks := updateLast (fun t => { t with title := v }) c.tracks }

/-- `(*CueSheet).parseRemark`: join, trim and append to the remarks
list.  The target field is a fresh empty string, so the assignment
always succeeds; the error branch is kept for structure. -/
def parseRemark (c : CueSheet) (parameters : List String) : GoRes CueSheet :=
  match parseString (goJoin parameters) "" with
  | .error e => .err (.wrap "error parsing REM parameters" e)
  | .ok remark => .ok { c with remarks := c.remarks ++ [remark] }

/-- `(*CueSheet).parseGenre`. -/
def parseGenre (c : CueSheet) (parameters : List String) : GoRes CueSheet :=
  match validateParameters RemGenreCommand parameters.length with
  | some e => .err (.wrap "invalid REM GENRE parameters" e)
  | none =>
    match parseString (goJoin parameters) c.genre with
    | .error e => .err (.wrap "error parsing REM GENRE parameters" e)
    | .ok v => .ok { c with genre := v }

/-- `(*CueSheet).parseDate`. -/
def parseDate (c : CueSheet) (parameters : List String) : GoRes CueSheet :=
  match validateParameters RemDateCommand parameters.length with
  | some e => .err (.wrap "invalid REM DATE parameters" e)
  | none =>
    match parseString (goJoin parameters) c.date with
    | .error e => .err (.wrap "error parsing REM DATE parameters" e)
    | .ok v => .ok { c with date := v }

/-- `(*CueSheet).parseDiscID`: arity (exactly 1), the parameter must be
exactly 8 bytes long, is scanned with `%X` into a `uint32`, and the
result is assigned at most once. -/
def parseDiscID (c : CueSheet) (parameters : List String) : GoRes CueSheet :=
  match validateParameters RemDiscIDCommand parameters.length with
  | some e => .err (.wrap "invalid REM DISCID parameters" e)
  | none =>
    match parameters with
    | discIDHex :: _ =>
      if discIDHex.utf8ByteSize ≠ 8 then .err (.discIDLength discIDHex.utf8ByteSize)
      else
        match scanHexU32 discIDHex with
        | none => .err (.wrap "error parsing hex string" .hexParseError)
        | some discID =>
          match assignValue 0 (fun n => toString n) discID c.discID with
          | .error e => .err (.wrap "error parsing REM DISC parameters" e)
          | .ok v => .ok { c with discID := v }
    | _ => .panicked

/-- The sub-command switch of `parseRem`: unrecognized sub-keywords
fall through to a free-form remark built from the full parameter
list. -/
def parseRemDispatch (c : CueSheet) (command : String)
    (parameters rest : List String) : GoRes CueSheet :=
  if goToUpper command = "GENRE" then parseGenre c rest
  else if goToUpper command = "DATE" then parseDate c rest
  else if goToUpper command = "DISCID" then parseDiscID c rest
  else if goToUpper command = "COMMENT" then parseRemark c rest
  else parseRemark c parameters

/-- The `fmt.Errorf("error parsing REM %q command: %w", command, err)`
layer of `parseRem`. -/
def wrapRem (command : String) : GoRes CueSheet → GoRes CueSheet
  | .err e => .err (.wrap ("error parsing REM " ++ command ++ " command") e)
  | r => r

/-- `(*CueSheet).parseRem`: the first parameter selects the
sub-command — accessing it panics when the parameter list is empty
(`parseRem` never checks `RemCommand`'s declared minimum arity); an
error from the sub-handler is wrapped with the sub-command name. -/
def parseRem (c : CueSheet) (parameters : List String) : GoRes CueSheet :=
  match parameters with
  | [] => .panicked
  | command :: rest => wrapRem command (parseRemDispatch c command parameters rest)

/-! ## Dispatcher, validator and Parse -/

/-- The `fmt.Errorf("error parsing %q command: %w", command, err)`
layer applied by `parseLine` to a handler's error (the original,
pre-uppercase command string is interpolated). -/
def wrapCmd (command : String) : GoRes CueSheet → GoRes CueSheet
  | .err e => .err (.cmdContext command e)
  | r => r

/-- `(*CueSheet).parseLine`: split into fields, uppercase the command
keyword, and route.  `fields[0]` panics when the line splits into no
fields; unknown keywords fail without the command-context layer. -/
def parseLine (c : CueSheet) (line : String) : GoRes CueSheet :=
  match goFields line with
  | [] => .panicked
  | command :: parameters =>
    if goToUpper command = FileCommand.name then wrapCmd command (parseFile c parameters)
    else if goToUpper command = PerformerCommand.name then wrapCmd command (parsePerformer c parameters)
    else if goToUpper command = TrackCommand.name then wrapCmd command (parseTrack c parameters)
    else if goToUpper command = TrackIndexCommand.name then wrapCmd command (parseTrackIndex c parameters)
    else if goToUpper command = TitleCommand.name then wrapCmd command (parseTitle c parameters)
    else if goToUpper command = RemCommand.name then wrapCmd command (parseRem c parameters)
    else .err (.unexpectedCommand command)

/-- `validateTrackIndices`: scan every adjacent pair of the collected
index points and fail at the first pair that is not strictly increasing
by `(timestamp, frame)`, naming both points. -/
def validateTrackIndices : List IndexPoint → Option ParseError
  | currIdx :: nextIdx :: rest =>
    if currIdx.timestamp > nextIdx.timestamp ∨
        (currIdx.timestamp = nextIdx.timestamp ∧ currIdx.frame ≥ nextIdx.frame) then
      some (.overlappingIndices currIdx nextIdx)
    else validateTrackIndices (nextIdx :: rest)
  | _ => none

/-- The index points a track contributes, in document order: the
optional `index00` followed by `index01` (which is appended whether or
not an INDEX 01 command ever assigned it). -/
def trackIndices (t : Track) : List IndexPoint :=
  (match t.index00 with
   | some i => [i]
   | none => []) ++ [t.index01]

/-- `(*CueSheet).validateTracks`, with the `indices` slice the Go loop
accumulates made explicit: each track's type must be non-empty (there
is no check on `index01`), its index points are collected, and the
collected list is checked for strict ordering. -/
def validateTracksAux (indices : List IndexPoint) : List Track → Option ParseError
  | [] => validateTrackIndices indices
  | track :: rest =>
    if track.ttype = "" then some .missingTrackType
    else validateTracksAux (indices ++ trackIndices track) rest

/-- `(*CueSheet).validateTracks` on the track list. -/
def validateTracks (tracks : List Track) : Option ParseError :=
  validateTracksAux [] tracks

/-- `(*CueSheet).validate`: missing file name, then missing format,
then empty track list, then the per-track checks. -/
def validate (c : CueSheet) : Option ParseError :=
  if c.fileName = "" then some .missingFileName
  else if c.format = "" then some .missingFileFormat
  else if c.tracks.length = 0 then some .missingTracks
  else
    match validateTracks c.tracks with
    | some e => some (.wrap "invalid tracks" e)
    | none => none

/-- The scanning loop of `Parse`: each raw line is trimmed; empty lines
and bare `REM` lines (case-sensitively) are skipped with the line
counter still advancing; any handler error is wrapped with the 1-based
line number and the trimmed line text and aborts the parse; after the
last line the validator runs. -/
def parseLines (c : CueSheet) (lineNr : Nat) : List String → GoRes CueSheet
  | [] =>
    match validate c with
    | some e => .err (.wrap "invalid cue sheet" e)
    | none => .ok c
  | raw :: rest =>
    if goTrim raw = "" ∨ goTrim raw = "REM" then parseLines c (lineNr + 1) rest
    else
      match parseLine c (goTrim raw) with
      | .ok c2 => parseLines c2 (lineNr + 1) rest
      | .err e => .err (.lineContext (lineNr + 1) (goTrim raw) e)
      | .panicked => .panicked

/-- `Parse`: run the scanning loop from the empty document over the
input lines. -/
def Parse (input : List String) : GoRes CueSheet :=
  parseLines emptySheet 0 input

/-! ## Derived notions used by the claims -/

/-- The flattened, document-ordered sequence of all index points. -/
def flattenIndices (tracks : List Track) : List IndexPoint :=
  tracks.flatMap trackIndices

/-- Strict `(timestamp, frame)` lexicographic order on index points. -/
def ipLt (a b : IndexPoint) : Prop :=
  a.timestamp < b.timestamp ∨ (a.timestamp = b.timestamp ∧ a.frame < b.frame)

instance : DecidableRel ipLt := fun a b => by
  unfold ipLt; infer_instance

/-! ## Lemmas about the validator -/

lemma not_overlap_iff (a b : IndexPoint) :
    (¬ (a.timestamp > b.timestamp ∨ (a.timestamp = b.timestamp ∧ a.frame ≥ b.frame))) ↔
      ipLt a b := by
  unfold ipLt
  omega

lemma vti_cons_cons (a b : IndexPoint) (rest : List IndexPoint) :
    validateTrackIndices (a :: b :: rest) =
      if a.timestamp > b.timestamp ∨ (a.timestamp = b.timestamp ∧ a.frame ≥ b.frame) then
        some (ParseError.overlappingIndices a b)
      else validateTrackIndices (b :: rest) := rfl

lemma validateTrackIndices_none_iff (l : List IndexPoint) :
    validateTrackIndices l = none ↔ l.Chain' ipLt := by
  induction l with
  | nil => simp [validateTrackIndices]
  | cons a rest ih =>
    cases rest with
    | nil => simp [validateTrackIndices]
    | cons b rest2 =>
      rw [vti_cons_cons, List.chain'_cons, ← ih]
      by_cases hab : a.timestamp > b.timestamp ∨ (a.timestamp = b.timestamp ∧ a.frame ≥ b.frame)
      · have hnl : ¬ ipLt a b := fun hl => ((not_overlap_iff a b).mpr hl) hab
        rw [if_pos hab]
        simp [hnl]
      · have hl : ipLt a b := (not_overlap_iff a b).mp hab
        rw [if_neg hab]
        simp [hl]

lemma validateTrackIndices_some_spec (l : List IndexPoint) (e : ParseError)
    (h : validateTrackIndices l = some e) :
    ∃ a b, e = ParseError.overlappingIndices a b ∧ ¬ ipLt a b ∧
      ∃ i, l.get? i = some a ∧ l.get? (i + 1) = some b ∧
        ∀ j, j < i → ∀ x y, l.get? j = some x → l.get? (j + 1) = some y → ipLt x y := by
  induction l with
  | nil => simp [validateTrackIndices] at h
  | cons a rest ih =>
    cases rest with
    | nil => simp [validateTrackIndices] at h
    | cons b rest2 =>
      rw [vti_cons_cons] at h
      by_cases hab : a.timestamp > b.timestamp ∨ (a.timestamp = b.timestamp ∧ a.frame ≥ b.frame)
      · rw [if_pos hab] at h
        have he : e = ParseError.overlappingIndices a b := (Option.some.inj h).symm
        have hnl : ¬ ipLt a b := fun hl => ((not_overlap_iff a b).mpr hl) hab
        refine ⟨a, b, he, hnl, 0, rfl, rfl, ?_⟩
        intro j hj
        exact absurd hj (Nat.not_lt_zero j)
      · rw [if_neg hab] at h
        have hab' : ipLt a b := (not_overlap_iff a b).mp hab
        obtain ⟨x, y, hxy, hnl, i, hgx, hgy, hfirst⟩ := ih h
        refine ⟨x, y, hxy, hnl, i + 1, by simpa using hgx, by simpa using hgy, ?_⟩
        intro j hj u v hu hv
        cases j with
        | zero =>
          simp only [List.get?_cons_zero, List.get?_cons_succ, Option.some.injEq] at hu hv
          rw [← hu, ← hv]
          exact hab'
        | succ j2 =>
          exact hfirst j2 (by omega) u v (by simpa using hu) (by simpa using hv)

lemma flattenIndices_cons (t : Track) (ts : List Track) :
    flattenIndices (t :: ts) = trackIndices t ++ flattenIndices ts := by
  simp [flattenIndices]

lemma vta_nil (acc : List IndexPoint) :
    validateTracksAux acc [] = validateTrackIndices acc := rfl

lemma vta_cons (acc : List IndexPoint) (t : Track) (rest : List Track) :
    validateTracksAux acc (t :: rest) =
      if t.ttype = "" then some ParseError.missingTrackType
      else validateTracksAux (acc ++ trackIndices t) rest := rfl

lemma validateTracksAux_none_iff (ts : List Track) :
    ∀ acc, validateTracksAux acc ts = none ↔
      ((∀ t ∈ ts, t.ttype ≠ "") ∧ validateTrackIndices (acc ++ flattenIndices ts) = none) := by
  induction ts with
  | nil => intro acc; simp [vta_nil, flattenIndices]
  | cons t rest ih =>
    intro acc
    rw [vta_cons]
    by_cases ht : t.ttype = ""
    · simp [ht]
    · rw [if_neg ht, ih (acc ++ trackIndices t)]
      simp [ht, flattenIndices_cons, List.append_assoc]

/-- `validateTracks` succeeds exactly when every track has a non-empty
type and the flattened index-point sequence passes the ordering scan;
nothing about the presence of `index01` is checked. -/
lemma validateTracks_none_iff (tracks : List Track) :
    validateTracks tracks = none ↔
      ((∀ t ∈ tracks, t.ttype ≠ "") ∧
        validateTrackIndices (flattenIndices tracks) = none) := by
  simpa using validateTracksAux_none_iff tracks []

lemma validate_none_tracks (c : CueSheet) (h : validate c = none) :
    validateTracks c.tracks = none := by
  unfold validate at h
  split_ifs at h
  cases hv : validateTracks c.tracks with
  | none => rfl
  | some e => rw [hv] at h; simp at h

lemma parseLines_nil (c : CueSheet) (n : Nat) :
    parseLines c n [] =
      (match validate c with
       | some e => GoRes.err (ParseError.wrap "invalid cue sheet" e)
       | none => GoRes.ok c) := rfl

lemma parseLines_cons (c : CueSheet) (n : Nat) (raw : String) (rest : List String) :
    parseLines c n (raw :: rest) =
      (if goTrim raw = "" ∨ goTrim raw = "REM" then parseLines c (n + 1) rest
       else
        match parseLine c (goTrim raw) with
        | .ok c2 => parseLines c2 (n + 1) rest
        | .err e => .err (.lineContext (n + 1) (goTrim raw) e)
        | .panicked => .panicked) := rfl

lemma parseLines_ok_validate (ls : List String) :
    ∀ c n doc, parseLines c n ls = GoRes.ok doc → (validate doc = none ∧ doc = c) ∨
      ∃ c2 n2 ls2, parseLines c2 n2 ls2 = GoRes.ok doc ∧ ls2.length < ls.length := by
  intro c n doc h
  cases ls with
  | nil =>
    left
    rw [parseLines_nil] at h
    cases hv : validate c with
    | some e => rw [hv] at h; simp at h
    | none =>
      rw [hv] at h
      simp only [GoRes.ok.injEq] at h
      exact ⟨h ▸ hv, h.symm⟩
  | cons raw rest =>
    right
    rw [parseLines_cons] at h
    by_cases hskip : goTrim raw = "" ∨ goTrim raw = "REM"
    · rw [if_pos hskip] at h
      exact ⟨c, n + 1, rest, h, by simp⟩
    · rw [if_neg hskip] at h
      cases hp : parseLine c (goTrim raw) with
      | ok c2 =>
        rw [hp] at h
        exact ⟨c2, n + 1, rest, h, by simp⟩
      | err e => rw [hp] at h; simp at h
      | panicked => rw [hp] at h; simp at h

/-- A successful `Parse` implies the validator accepted the returned
document. -/
lemma parse_ok_validate (input : List String) (doc : CueSheet)
    (h : Parse input = GoRes.ok doc) : validate doc = none := by
  unfold Parse at h
  suffices H : ∀ m (ls : List String) c n, ls.length ≤ m →
      parseLines c n ls = GoRes.ok doc → validate doc = none by
    exact H input.length input emptySheet 0 le_rfl h
  intro m
  induction m with
  | zero =>
    intro ls c n hlen hok
    rcases parseLines_ok_validate ls c n doc hok with ⟨hv, _⟩ | ⟨c2, n2, ls2, _, hlt⟩
    · exact hv
    · omega
  | succ m ih =>
    intro ls c n hlen hok
    rcases parseLines_ok_validate ls c n doc hok with ⟨hv, _⟩ | ⟨c2, n2, ls2, hok2, hlt⟩
    · exact hv
    · exact ih ls2 c2 n2 (by omega) hok2

/-! ## Lemmas about the handlers -/

lemma updateLast_length (f : Track → Track) (ts : List Track) :
    (updateLast f ts).length = ts.length := by
  induction ts with
  | nil => rfl
  | cons t rest ih =>
    cases rest with
    | nil => rfl
    | cons u rest2 => simpa [updateLast] using ih

lemma wrapCmd_ok (cmd : String) (x : GoRes CueSheet) (r : CueSheet)
    (h : wrapCmd cmd x = GoRes.ok r) : x = GoRes.ok r := by
  cases x with
  | ok v => simpa [wrapCmd] using h
  | err e => simp [wrapCmd] at h
  | panicked => simp [wrapCmd] at h

lemma wrapRem_ok (cmd : String) (x : GoRes CueSheet) (r : CueSheet)
    (h : wrapRem cmd x = GoRes.ok r) : x = GoRes.ok r := by
  cases x with
  | ok v => simpa [wrapRem] using h
  | err e => simp [wrapRem] at h
  | panicked => simp [wrapRem] at h

lemma validateParameters_none (cmd : Command) (n : Nat)
    (h : validateParameters cmd n = none) :
    (cmd.exactParams > 0 → n = cmd.exactParams) ∧
      (cmd.minParams > 0 → cmd.minParams ≤ n) := by
  unfold validateParameters at h
  split_ifs at h with h1 h2
  push_neg at h1 h2
  exact ⟨h1, h2⟩


lemma parseFile_ok_tracks (c : CueSheet) (p : List String) (r : CueSheet)
    (h : parseFile c p = GoRes.ok r) : r.tracks = c.tracks := by
  unfold parseFile at h
  cases hv : validateParameters FileCommand p.length <;> simp only [hv] at h
  case some => exact absurd h (by simp)
  cases hl : p.getLast? <;> simp only [hl] at h
  case none => exact absurd h (by simp)
  rename_i format
  split_ifs at h with hfmt
  cases ha : assignValue "" (fun s => s) format c.format <;> simp only [ha] at h
  · exact absurd h (by simp)
  · cases hs : parseString (goJoin p.dropLast) c.fileName <;> simp only [hs] at h
    · exact absurd h (by simp)
    · simp only [GoRes.ok.injEq] at h
      rw [← h]

lemma parsePerformer_ok_tracks (c : CueSheet) (p : List String) (r : CueSheet)
    (h : parsePerformer c p = GoRes.ok r) : r.tracks = c.tracks := by
  unfold parsePerformer at h
  cases hv : validateParameters PerformerCommand p.length <;> simp only [hv] at h
  case some => exact absurd h (by simp)
  cases hs : parseString (goJoin p) c.albumPerformer <;> simp only [hs] at h
  case error => exact absurd h (by simp)
  simp only [GoRes.ok.injEq] at h
  rw [← h]

lemma parseGenre_ok_tracks (c : CueSheet) (p : List String) (r : CueSheet)
    (h : parseGenre c p = GoRes.ok r) : r.tracks = c.tracks := by
  unfold parseGenre at h
  cases hv : validateParameters RemGenreCommand p.length <;> simp only [hv] at h
  case some => exact absurd h (by simp)
  cases hs : parseString (goJoin p) c.genre <;> simp only [hs] at h
  case error => exact absurd h (by simp)
  simp only [GoRes.ok.injEq] at h
  rw [← h]

lemma parseDate_ok_tracks (c : CueSheet) (p : List String) (r : CueSheet)
    (h : parseDate c p = GoRes.ok r) : r.tracks = c.tracks := by
  unfold parseDate at h
  cases hv : validateParameters RemDateCommand p.length <;> simp only [hv] at h
  case some => exact absurd h (by simp)
  cases hs : parseString (goJoin p) c.date <;> simp only [hs] at h
  case error => exact absurd h (by simp)
  simp only [GoRes.ok.injEq] at h
  rw [← h]

lemma parseRemark_ok_tracks (c : CueSheet) (p : List String) (r : CueSheet)
    (h : parseRemark c p = GoRes.ok r) : r.tracks = c.tracks := by
  unfold parseRemark at h
  cases hs : parseString (goJoin p) "" <;> simp only [hs] at h
  case error => exact absurd h (by simp)
  simp only [GoRes.ok.injEq] at h
  rw [← h]

lemma parseDiscID_ok_tracks (c : CueSheet) (p : List String) (r : CueSheet)
    (h : parseDiscID c p = GoRes.ok r) : r.tracks = c.tracks := by
  unfold parseDiscID at h
  cases hv : validateParameters RemDiscIDCommand p.length <;> simp only [hv] at h
  case some => exact absurd h (by simp)
  cases p with
  | nil => exact absurd h (by simp)
  | cons d p2 =>
    have h2 : (if d.utf8ByteSize ≠ 8 then
          GoRes.err (ParseError.discIDLength d.utf8ByteSize)
        else
          match scanHexU32 d with
          | none => GoRes.err (ParseError.wrap "error parsing hex string" ParseError.hexParseError)
          | some discID =>
            match assignValue 0 (fun n => toString n) discID c.discID with
            | Except.error e => GoRes.err (ParseError.wrap "error parsing REM DISC parameters" e)
            | Except.ok v => GoRes.ok { c with discID := v }) = GoRes.ok r := h
    split_ifs at h2 with hlen
    cases hx : scanHexU32 d <;> simp only [hx] at h2
    · exact absurd h2 (by simp)
    · rename_i discID
      cases ha : assignValue 0 (fun n => toString n) discID c.discID <;> simp only [ha] at h2
      · exact absurd h2 (by simp)
      · simp only [GoRes.ok.injEq] at h2
        rw [← h2]

lemma parseRem_ok_tracks (c : CueSheet) (p : List String) (r : CueSheet)
    (h : parseRem c p = GoRes.ok r) : r.tracks = c.tracks := by
  cases p with
  | nil => exact absurd h (by simp [parseRem])
  | cons command rest =>
    have h2 : wrapRem command (parseRemDispatch c command (command :: rest) rest) =
        GoRes.ok r := h
    have hd := wrapRem_ok _ _ _ h2
    unfold parseRemDispatch at hd
    split_ifs at hd
    · exact parseGenre_ok_tracks c rest r hd
    · exact parseDate_ok_tracks c rest r hd
    · exact parseDiscID_ok_tracks c rest r hd
    · exact parseRemark_ok_tracks c rest r hd
    · exact parseRemark_ok_tracks c (command :: rest) r hd

lemma parseTrackIndex_ok_tracks_length (c : CueSheet) (p : List String) (r : CueSheet)
    (h : parseTrackIndex c p = GoRes.ok r) : r.tracks.length = c.tracks.length := by
  unfold parseTrackIndex at h
  cases hv : validateParameters TrackIndexCommand p.length <;> simp only [hv] at h
  case some => exact absurd h (by simp)
  cases p with
  | nil => exact absurd h (by simp)
  | cons nr p2 =>
    cases p2 with
    | nil => exact absurd h (by simp)
    | cons ip p3 =>
      cases ha : goAtoi nr <;> simp only [ha] at h
      · exact absurd h (by simp)
      · rename_i indexNr
        split_ifs at h with h01 hidx
        · cases hs : sscanfTimestamp ip <;> simp only [hs] at h
          · exact absurd h (by simp)
          · rename_i mst
            obtain ⟨m, s, f⟩ := mst
            cases hl : c.tracks.getLast? <;> simp only [hl] at h
            · exact absurd h (by simp)
            · rename_i lastTrack
              cases hav : assignValue ipZero showIndexPoint
                  ⟨f, m * 60000000000 + s * 1000000000⟩ ipZero <;> simp only [hav] at h
              · exact absurd h (by simp)
              · simp only [GoRes.ok.injEq] at h
                rw [← h]
                simp [updateLast_length]
        · cases hs : sscanfTimestamp ip <;> simp only [hs] at h
          · exact absurd h (by simp)
          · rename_i mst
            obtain ⟨m, s, f⟩ := mst
            cases hl : c.tracks.getLast? <;> simp only [hl] at h
            · exact absurd h (by simp)
            · rename_i lastTrack
              cases hav : assignValue ipZero showIndexPoint
                  ⟨f, m * 60000000000 + s * 1000000000⟩ lastTrack.index01 <;> simp only [hav] at h
              · exact absurd h (by simp)
              · simp only [GoRes.ok.injEq] at h
                rw [← h]
                simp [updateLast_length]

lemma parseTitle_ok_spec (c : CueSheet) (p : List String) (r : CueSheet)
    (h : parseTitle c p = GoRes.ok r) :
    (c.tracks = [] → r = { c with albumTitle := goTrim (goJoin p) }) ∧
      (c.tracks ≠ [] →
        r = { c with
          tracks := updateLast (fun t => { t with title := goTrim (goJoin p) }) c.tracks }) := by
  unfold parseTitle at h
  cases hv : validateParameters TitleCommand p.length <;> simp only [hv] at h
  case some => exact absurd h (by simp)
  by_cases hz : c.tracks.length = 0
  · rw [if_pos hz] at h
    have hnil : c.tracks = [] := List.length_eq_zero.mp hz
    cases hs : parseString (goJoin p) c.albumTitle <;> simp only [hs] at h
    · exact absurd h (by simp)
    · rename_i v
      simp only [GoRes.ok.injEq] at h
      have hveq : v = goTrim (goJoin p) := by
        unfold parseString assignValue at hs
        split_ifs at hs
        exact (Except.ok.inj hs).symm
      refine ⟨fun _ => ?_, fun hne => absurd hnil hne⟩
      rw [← h, hveq]
  · rw [if_neg hz] at h
    have hne : c.tracks ≠ [] := fun hnil => hz (by rw [hnil]; rfl)
    cases hl : c.tracks.getLast? <;> simp only [hl] at h
    · exact absurd h (by simp)
    · rename_i currentTrack
      cases hs : parseString (goJoin p) currentTrack.title <;> simp only [hs] at h
      · exact absurd h (by simp)
      · rename_i v
        simp only [GoRes.ok.injEq] at h
        have hveq : v = goTrim (goJoin p) := by
          unfold parseString assignValue at hs
          split_ifs at hs
          exact (Except.ok.inj hs).symm
        refine ⟨fun hnil => absurd hnil hne, fun _ => ?_⟩
        rw [← h, hveq]

/-! ## Lemmas about track numbering -/

lemma digitVal_le (c : Char) (hc : c.isDigit = true) : digitVal c ≤ 9 := by
  simp [Char.isDigit] at hc
  have h2 : c.toNat ≤ 57 := hc.2
  unfold digitVal
  omega

lemma goAtoiCore_some (neg : Bool) (ds : List Char) (k : Int)
    (h : goAtoiCore neg ds = some k) :
    ds.all Char.isDigit = true ∧ k = signedVal neg ds := by
  unfold goAtoiCore at h
  split_ifs at h with h1 h2 h3
  exact ⟨h2, (Option.some.inj h).symm⟩

lemma digitsVal_pair (a b : Char) : digitsVal [a, b] = digitVal a * 10 + digitVal b := by
  simp [digitsVal, List.foldl]

lemma goAtoi_two_chars_bound (nr : String) (k : Int)
    (h : goAtoi nr = some k) (hl : nr.length = 2) : k ≤ 99 := by
  have hl2 : nr.toList.length = 2 := hl
  obtain ⟨a, b, hab⟩ := List.length_eq_two.mp hl2
  unfold goAtoi at h
  rw [hab] at h
  simp only [List.head?_cons, List.tail_cons, Option.some.injEq] at h
  split_ifs at h with hp hm
  · obtain ⟨hall, hk⟩ := goAtoiCore_some _ _ _ h
    have hb : b.isDigit = true := by simpa using hall
    have hle := digitVal_le b hb
    rw [hk]
    simp only [signedVal, if_neg Bool.false_ne_true, digitsVal, List.foldl]
    omega
  · obtain ⟨hall, hk⟩ := goAtoiCore_some _ _ _ h
    have hb : b.isDigit = true := by simpa using hall
    have hle := digitVal_le b hb
    rw [hk]
    simp only [signedVal, if_pos rfl, digitsVal, List.foldl]
    omega
  · obtain ⟨hall, hk⟩ := goAtoiCore_some _ _ _ h
    have hab' : a.isDigit = true ∧ b.isDigit = true := by simpa using hall
    have hlea := digitVal_le a hab'.1
    have hleb := digitVal_le b hab'.2
    rw [hk]
    simp only [signedVal, if_neg Bool.false_ne_true, digitsVal_pair]
    omega

lemma isNextTrack_none_spec (c : CueSheet) (nr : String)
    (h : isNextTrack c nr = none) :
    goAtoi nr = some ((c.tracks.length : Int) + 1) ∧ nr.length = 2 := by
  unfold isNextTrack at h
  cases ha : goAtoi nr <;> simp only [ha] at h
  · simp at h
  · rename_i k
    split_ifs at h with hlen hne
    push_neg at hlen hne
    exact ⟨by rw [hne], hlen⟩

lemma parseTrack_ok_spec (c : CueSheet) (p : List String) (r : CueSheet)
    (h : parseTrack c p = GoRes.ok r) :
    ∃ nr typ, p = [nr, typ] ∧
      goAtoi nr = some ((c.tracks.length : Int) + 1) ∧ nr.length = 2 ∧
      r = { c with tracks := c.tracks ++ [{ trackZero with ttype := goTrim typ }] } := by
  unfold parseTrack at h
  cases hv : validateParameters TrackCommand p.length <;> simp only [hv] at h
  case some => exact absurd h (by simp)
  have hlen2 : p.length = 2 := (validateParameters_none _ _ hv).1 (by decide)
  cases p with
  | nil => simp at hlen2
  | cons nr p2 =>
    cases p2 with
    | nil => simp at hlen2
    | cons typ p3 =>
      have hp3 : p3 = [] := by
        simp only [List.length_cons] at hlen2
        have h0 : p3.length = 0 := by omega
        exact List.length_eq_zero.mp h0
      subst hp3
      cases hnext : isNextTrack c nr <;> simp only [hnext] at h
      · cases hs : parseString typ trackZero.ttype <;> simp only [hs] at h
        · unfold parseString assignValue at hs
          simp [trackZero] at hs
        · rename_i tv
          have htv : tv = goTrim typ := by
            unfold parseString assignValue at hs
            split_ifs at hs
            exact (Except.ok.inj hs).symm
          obtain ⟨hAtoi, hlen⟩ := isNextTrack_none_spec c nr hnext
          simp only [GoRes.ok.injEq] at h
          refine ⟨nr, typ, rfl, hAtoi, hlen, ?_⟩
          rw [← h, htv]
      · exact absurd h (by simp)

/-- One accepted line changes the track count by zero, or appends one
track while keeping the count within the maximum of 99 (enforced by the
two-digit track-number requirement, whose largest value is 99). -/
lemma parseLine_ok_step (c : CueSheet) (line : String) (r : CueSheet)
    (h : parseLine c line = GoRes.ok r) :
    r.tracks.length = c.tracks.length ∨
      (r.tracks.length = c.tracks.length + 1 ∧ r.tracks.length ≤ 99) := by
  unfold parseLine at h
  cases hf : goFields line <;> simp only [hf] at h
  · simp at h
  · rename_i command params
    split_ifs at h with h1 h2 h3 h4 h5 h6
    · left
      rw [parseFile_ok_tracks c params r (wrapCmd_ok _ _ _ h)]
    · left
      rw [parsePerformer_ok_tracks c params r (wrapCmd_ok _ _ _ h)]
    · obtain ⟨nr, typ, hp, hAtoi, hlen, hr⟩ :=
        parseTrack_ok_spec c params r (wrapCmd_ok _ _ _ h)
      right
      have hbound := goAtoi_two_chars_bound nr _ hAtoi hlen
      constructor
      · rw [hr]
        simp
      · rw [hr]
        simp only [List.length_append, List.length_cons, List.length_nil]
        omega
    · left
      exact parseTrackIndex_ok_tracks_length c params r (wrapCmd_ok _ _ _ h)
    · left
      have hspec := parseTitle_ok_spec c params r (wrapCmd_ok _ _ _ h)
      by_cases hnil : c.tracks = []
      · rw [hspec.1 hnil]
      · rw [hspec.2 hnil]
        simp [updateLast_length]
    · left
      rw [parseRem_ok_tracks c params r (wrapCmd_ok _ _ _ h)]

/-- The track count never decreases across an accepted line (used for
the permanence of the album-title window closure). -/
lemma parseLine_tracks_mono (c : CueSheet) (line : String) (r : CueSheet)
    (h : parseLine c line = GoRes.ok r) : c.tracks.length ≤ r.tracks.length := by
  rcases parseLine_ok_step c line r h with h1 | ⟨h1, _⟩ <;> omega

lemma parseLines_tracks_le (ls : List String) : ∀ c n doc,
    parseLines c n ls = GoRes.ok doc → c.tracks.length ≤ 99 →
    doc.tracks.length ≤ 99 := by
  induction ls with
  | nil =>
    intro c n doc hok hc
    rw [parseLines_nil] at hok
    cases hv : validate c <;> rw [hv] at hok
    · simp only [GoRes.ok.injEq] at hok
      rw [← hok]
      exact hc
    · simp at hok
  | cons raw rest ih =>
    intro c n doc hok hc
    rw [parseLines_cons] at hok
    split_ifs at hok with hskip
    · exact ih c (n + 1) doc hok hc
    · cases hp : parseLine c (goTrim raw) <;> rw [hp] at hok
      · rcases parseLine_ok_step c (goTrim raw) _ hp with h1 | ⟨h1, h2⟩
        · exact ih _ (n + 1) doc hok (by omega)
        · exact ih _ (n + 1) doc hok (by omega)
      · simp at hok
      · simp at hok

/-- A successful `Parse` returns at most 99 tracks. -/
lemma parse_ok_tracks_le (input : List String) (doc : CueSheet)
    (h : Parse input = GoRes.ok doc) : doc.tracks.length ≤ 99 :=
  parseLines_tracks_le input emptySheet 0 doc h (by simp [emptySheet])

/-! ## Concrete inputs and documents for witnesses and counterexamples -/

def inputNoIndex01 : List String := ["FILE a.flac WAVE", "TRACK 01 AUDIO"]

def sheetNoIndex01 : CueSheet :=
  { emptySheet with
    format := "WAVE"
    fileName := "a.flac"
    tracks := [{ trackZero with ttype := "AUDIO" }] }

def inputDoubleIndex00 : List String :=
  ["FILE a.flac WAVE", "TRACK 01 AUDIO", "INDEX 00 00:00:01",
   "INDEX 00 00:00:02", "INDEX 01 00:00:03"]

def sheetDoubleIndex00 : CueSheet :=
  { emptySheet with
    format := "WAVE"
    fileName := "a.flac"
    tracks := [{ trackZero with ttype := "AUDIO", index00 := some ⟨2, 0⟩, index01 := ⟨3, 0⟩ }] }

def inputDoubleIndex01 : List String :=
  ["FILE a.flac WAVE", "TRACK 01 AUDIO", "INDEX 01 00:00:00", "INDEX 01 00:00:05"]

def sheetDoubleIndex01 : CueSheet :=
  { emptySheet with
    format := "WAVE"
    fileName := "a.flac"
    tracks := [{ trackZero with ttype := "AUDIO", index01 := ⟨5, 0⟩ }] }

def inputZeroDiscID : List String :=
  ["FILE a.flac WAVE", "TRACK 01 AUDIO", "INDEX 01 00:00:01",
   "REM DISCID 00000000", "REM DISCID 00000001"]

def sheetZeroDiscID : CueSheet :=
  { emptySheet with
    format := "WAVE"
    fileName := "a.flac"
    discID := 1
    tracks := [{ trackZero with ttype := "AUDIO", index01 := ⟨1, 0⟩ }] }

def inputFileThreeParams : List String :=
  ["FILE my file.flac WAVE", "TRACK 01 AUDIO", "INDEX 01 00:00:00"]

def sheetFileThreeParams : CueSheet :=
  { emptySheet with
    format := "WAVE"
    fileName := "my file.flac"
    tracks := [{ trackZero with ttype := "AUDIO" }] }

def inputDiscIDGarbage : List String :=
  ["FILE a.flac WAVE", "TRACK 01 AUDIO", "INDEX 01 00:00:01", "REM DISCID 1234567Z"]

def sheetDiscIDGarbage : CueSheet :=
  { emptySheet with
    format := "WAVE"
    fileName := "a.flac"
    discID := 19088743
    tracks := [{ trackZero with ttype := "AUDIO", index01 := ⟨1, 0⟩ }] }

def inputTwoTracks : List String :=
  ["FILE a.flac WAVE", "TRACK 01 AUDIO", "INDEX 01 00:00:01",
   "TRACK 02 AUDIO", "INDEX 01 00:00:02"]

def sheetTwoTracks : CueSheet :=
  { emptySheet with
    format := "WAVE"
    fileName := "a.flac"
    tracks := [{ trackZero with ttype := "AUDIO", index01 := ⟨1, 0⟩ },
               { trackZero with ttype := "AUDIO", index01 := ⟨2, 0⟩ }] }

/-! ## Claim theorems -/

/-- C1 (counterexample): a document whose only track never receives an
INDEX 01 command parses successfully — the track's `index01` still holds
the zero index point in the returned document, so `Parse` does return a
successful document containing a track without a present `index01`. -/
theorem c1_counterexample_parse_ok_without_index01 :
    Parse inputNoIndex01 = GoRes.ok sheetNoIndex01 ∧
      ∀ t ∈ sheetNoIndex01.tracks, t.index01 = ipZero := by
  decide

/-- C2 (code evaluated at the failing input): a second INDEX 00 for the
same track is silently accepted and overwrites the stored point (the
code resets `Index00` to a fresh zero-valued pointer before running the
at-most-once assigner), and a second INDEX 01 whose first value was
`00:00:00` is likewise accepted, because the zero value is
indistinguishable from unset.  The first document stores frame 2 (the
second INDEX 00), not frame 1. -/
theorem c2_second_index_commands_accepted :
    Parse inputDoubleIndex00 = GoRes.ok sheetDoubleIndex00 ∧
      Parse inputDoubleIndex01 = GoRes.ok sheetDoubleIndex01 := by
  decide

/-- C3 (counterexample): `REM DISCID 00000000` stores the zero value,
which the Field Assigner cannot distinguish from unset, so a second
`REM DISCID 00000001` succeeds and overwrites instead of failing with a
field-already-set error. -/
theorem c3_counterexample_zero_discid_reassigned :
    Parse inputZeroDiscID = GoRes.ok sheetZeroDiscID ∧ sheetZeroDiscID.discID = 1 := by
  decide

/-- C5 (code evaluated at the failing inputs): an INDEX command before
any TRACK command indexes `Tracks[len-1]` on an empty track list, and a
lone lowercase `rem` line passes the case-sensitive skip check and then
`parseRem` reads `parameters[0]` of an empty list — both are
out-of-range accesses (Go runtime panics), not returned errors. -/
theorem c5_panics_on_index_before_track_and_lowercase_rem :
    Parse ["INDEX 01 00:00:00"] = GoRes.panicked ∧
      Parse ["rem"] = GoRes.panicked := by
  decide

/-- C6 (code evaluated at the failing input): `FileCommand` declares
`MinParams: 2` rather than an exact count, so a FILE line with 3
parameters passes arity validation and parses successfully, joining all
but the last token into the file name — contradicting the repository's
own test, which expects the error `expected 2 parameters, got 3`. -/
theorem c6_file_line_with_three_params_accepted :
    validateParameters FileCommand 3 = none ∧
      Parse inputFileThreeParams = GoRes.ok sheetFileThreeParams ∧
      sheetFileThreeParams.fileName = "my file.flac" := by
  decide

/-- C7 (counterexample): `fmt.Sscanf` with `%X` does not require the
whole parameter to be consumed — `REM DISCID 1234567Z` has 8 characters
of which only the leading 7 are hexadecimal, yet parsing succeeds with
the value 0x1234567 = 19088743; an 8-character parameter containing a
non-hexadecimal character does not necessarily fail. -/
theorem c7_counterexample_discid_trailing_garbage :
    Parse inputDiscIDGarbage = GoRes.ok sheetDiscIDGarbage ∧
      sheetDiscIDGarbage.discID = 19088743 := by
  decide

/-! ## Remaining helper lemmas for the claims -/

lemma assignValue_ok_spec {α : Type} [DecidableEq α] (zero : α) (render : α → String)
    (val fld v : α) (h : assignValue zero render val fld = Except.ok v) :
    fld = zero ∧ v = val := by
  unfold assignValue at h
  split_ifs at h with hne
  push_neg at hne
  exact ⟨hne, (Except.ok.inj h).symm⟩

lemma assignValue_already_set {α : Type} [DecidableEq α] (zero : α) (render : α → String)
    (val fld : α) (hne : fld ≠ zero) :
    assignValue zero render val fld =
      Except.error (ParseError.fieldAlreadySet (render fld)) := by
  unfold assignValue
  rw [if_pos hne]

lemma parseDiscID_ok_discID (c : CueSheet) (p : List String) (r : CueSheet)
    (h : parseDiscID c p = GoRes.ok r) : c.discID = 0 := by
  unfold parseDiscID at h
  cases hv : validateParameters RemDiscIDCommand p.length <;> simp only [hv] at h
  case some => exact absurd h (by simp)
  cases p with
  | nil => exact absurd h (by simp)
  | cons d p2 =>
    have h2 : (if d.utf8ByteSize ≠ 8 then
          GoRes.err (ParseError.discIDLength d.utf8ByteSize)
        else
          match scanHexU32 d with
          | none => GoRes.err (ParseError.wrap "error parsing hex string" ParseError.hexParseError)
          | some discID =>
            match assignValue 0 (fun n => toString n) discID c.discID with
            | Except.error e => GoRes.err (ParseError.wrap "error parsing REM DISC parameters" e)
            | Except.ok v => GoRes.ok { c with discID := v }) = GoRes.ok r := h
    split_ifs at h2 with hlen
    cases hx : scanHexU32 d <;> simp only [hx] at h2
    · exact absurd h2 (by simp)
    · rename_i discID
      cases ha : assignValue 0 (fun n => toString n) discID c.discID <;> simp only [ha] at h2
      · exact absurd h2 (by simp)
      · exact (assignValue_ok_spec _ _ _ _ _ ha).1

lemma parsePerformer_ok_performer (c : CueSheet) (p : List String) (r : CueSheet)
    (h : parsePerformer c p = GoRes.ok r) : c.albumPerformer = "" := by
  unfold parsePerformer at h
  cases hv : validateParameters PerformerCommand p.length <;> simp only [hv] at h
  case some => exact absurd h (by simp)
  cases hs : parseString (goJoin p) c.albumPerformer <;> simp only [hs] at h
  case error => exact absurd h (by simp)
  rename_i v
  have hs2 : assignValue "" (fun s => s) (goTrim (goJoin p)) c.albumPerformer =
      Except.ok v := hs
  exact (assignValue_ok_spec _ _ _ _ _ hs2).1

/-- C1 (amended): the post-pass validator checks only that every track
has a non-empty type and that the flattened index points are strictly
ordered — the presence of `index01` is never checked (an unassigned
`index01` holds the zero index point, indistinguishable from an
assigned `INDEX 01 00:00:00`), and a track with no INDEX 01 command can
appear in a successfully parsed document. -/
theorem c1_validator_ignores_missing_index01 :
    (∀ tracks : List Track, validateTracks tracks = none ↔
      ((∀ t ∈ tracks, t.ttype ≠ "") ∧
        validateTrackIndices (flattenIndices tracks) = none)) ∧
    (∃ input doc, Parse input = GoRes.ok doc ∧
      ∃ t ∈ doc.tracks, t.index01 = ipZero) := by
  refine ⟨validateTracks_none_iff, inputNoIndex01, sheetNoIndex01, by decide, ?_⟩
  exact ⟨{ trackZero with ttype := "AUDIO" }, by decide, by decide⟩

theorem c1_witness :
    validateTracks [⟨"x", "AUDIO", none, ipZero⟩] = none :=
  (c1_validator_ignores_missing_index01.1 _).mpr (by decide)

/-- C3 (amended): a scalar field whose current value differs from its
type's zero value rejects a second assignment with a field-already-set
error carrying the first value, and a document whose disc id (resp.
performer) is already non-zero (resp. non-empty) can never accept
another REM DISCID (resp. PERFORMER) command; when the first-assigned
value equals the zero value the field is indistinguishable from unset
and a second assignment overwrites it. -/
theorem c3_already_set_field_rejected :
    (∀ (α : Type) [DecidableEq α] (zero : α) (render : α → String) (val fld : α),
      fld ≠ zero →
      assignValue zero render val fld =
        Except.error (ParseError.fieldAlreadySet (render fld))) ∧
    (∀ c p r, c.discID ≠ 0 → parseDiscID c p ≠ GoRes.ok r) ∧
    (∀ c p r, c.albumPerformer ≠ "" → parsePerformer c p ≠ GoRes.ok r) := by
  refine ⟨?_, ?_, ?_⟩
  · intro α _ zero render val fld hne
    exact assignValue_already_set zero render val fld hne
  · intro c p r hne hok
    exact hne (parseDiscID_ok_discID c p r hok)
  · intro c p r hne hok
    exact hne (parsePerformer_ok_performer c p r hok)

theorem c3_witness :
    assignValue "" (fun s => s) "b" "a" =
      Except.error (ParseError.fieldAlreadySet "a") ∧
    parseDiscID { emptySheet with discID := 1 } ["12345678"] ≠ GoRes.ok emptySheet :=
  ⟨c3_already_set_field_rejected.1 String "" (fun s => s) "b" "a" (by decide),
   c3_already_set_field_rejected.2.1 _ _ _ (by decide)⟩

/-- C4: every successfully parsed document has its flattened,
document-ordered index-point sequence strictly increasing under the
(timestamp, frame) lexicographic order; the ordering scan rejects any
list with an adjacent pair that is equal or out of order, and the error
it returns names the first such adjacent pair. -/
theorem c4_index_points_strictly_increasing :
    (∀ input doc, Parse input = GoRes.ok doc →
      List.Chain' ipLt (flattenIndices doc.tracks)) ∧
    (∀ l e, validateTrackIndices l = some e →
      ∃ a b, e = ParseError.overlappingIndices a b ∧ ¬ ipLt a b ∧
        ∃ i, l.get? i = some a ∧ l.get? (i + 1) = some b ∧
          ∀ j, j < i → ∀ x y, l.get? j = some x → l.get? (j + 1) = some y → ipLt x y) ∧
    (∀ l : List IndexPoint, ¬ List.Chain' ipLt l → validateTrackIndices l ≠ none) := by
  refine ⟨?_, validateTrackIndices_some_spec, ?_⟩
  · intro input doc h
    have hv := parse_ok_validate input doc h
    have ht := validate_none_tracks doc hv
    exact (validateTrackIndices_none_iff _).mp ((validateTracks_none_iff doc.tracks).mp ht).2
  · intro l hnc hnone
    exact hnc ((validateTrackIndices_none_iff l).mp hnone)

theorem c4_witness : List.Chain' ipLt (flattenIndices sheetTwoTracks.tracks) :=
  c4_index_points_strictly_increasing.1 inputTwoTracks sheetTwoTracks (by decide)

/-- C7 (amended): with an unset disc id, `REM DISCID` with a single
parameter succeeds exactly when the parameter is 8 bytes long and
starts with a hexadecimal digit (`scanHexU32` succeeds); the stored
value is the hex value of the maximal leading run of hex digits, with
trailing non-hex characters ignored; any other length fails with the
length error. -/
theorem c7_discid_success_characterization (c : CueSheet) (d : String)
    (h0 : c.discID = 0) :
    ((∃ r, parseDiscID c [d] = GoRes.ok r) ↔
      (d.utf8ByteSize = 8 ∧ (scanHexU32 d).isSome)) ∧
    (∀ r, parseDiscID c [d] = GoRes.ok r →
      r = { c with discID := (scanHexU32 d).getD 0 }) ∧
    (d.utf8ByteSize ≠ 8 →
      parseDiscID c [d] = GoRes.err (ParseError.discIDLength d.utf8ByteSize)) := by
  have hM : parseDiscID c [d] =
      (if d.utf8ByteSize ≠ 8 then GoRes.err (ParseError.discIDLength d.utf8ByteSize)
       else
        match scanHexU32 d with
        | none => GoRes.err (ParseError.wrap "error parsing hex string" ParseError.hexParseError)
        | some discID =>
          match assignValue 0 (fun n => toString n) discID c.discID with
          | Except.error e => GoRes.err (ParseError.wrap "error parsing REM DISC parameters" e)
          | Except.ok v => GoRes.ok { c with discID := v }) := rfl
  by_cases hlen : d.utf8ByteSize = 8
  · cases hx : scanHexU32 d with
    | none =>
      have hM2 : parseDiscID c [d] =
          GoRes.err (ParseError.wrap "error parsing hex string" ParseError.hexParseError) := by
        rw [hM, if_neg (by omega)]
        simp only [hx]
      refine ⟨?_, ?_, fun hne => absurd hlen hne⟩
      · constructor
        · rintro ⟨r, hr⟩
          rw [hM2] at hr
          simp at hr
        · rintro ⟨-, hsome⟩
          simp at hsome
      · intro r hr
        rw [hM2] at hr
        simp at hr
    | some dv =>
      have hM2 : parseDiscID c [d] = GoRes.ok { c with discID := dv } := by
        rw [hM, if_neg (by omega)]
        simp only [hx, h0]
        simp [assignValue]
      refine ⟨?_, ?_, fun hne => absurd hlen hne⟩
      · constructor
        · intro _
          exact ⟨hlen, rfl⟩
        · intro _
          exact ⟨{ c with discID := dv }, hM2⟩
      · intro r hr
        rw [hM2] at hr
        simp only [GoRes.ok.injEq] at hr
        rw [← hr]
        simp
  · have hM2 : parseDiscID c [d] =
        GoRes.err (ParseError.discIDLength d.utf8ByteSize) := by
      rw [hM, if_pos hlen]
    refine ⟨?_, ?_, fun _ => hM2⟩
    · constructor
      · rintro ⟨r, hr⟩
        rw [hM2] at hr
        simp at hr
      · rintro ⟨h8, -⟩
        exact absurd h8 hlen
    · intro r hr
      rw [hM2] at hr
      simp at hr

theorem c7_witness :
    ∃ r, parseDiscID emptySheet ["12345678"] = GoRes.ok r :=
  (c7_discid_success_characterization emptySheet "12345678" rfl).1.mpr (by decide)

/-- C8: a TITLE command with no track declared yet targets the album
title (on success the returned document is the input document with the
album title set to the trimmed joined parameters); once at least one
track exists, TITLE targets the most recently declared track's title
and leaves the album title untouched; and the track count never
decreases across any accepted line, so the transition is one-way and
permanent. -/
theorem c8_title_context_sensitivity :
    (∀ c p r, parseTitle c p = GoRes.ok r → c.tracks = [] →
      r = { c with albumTitle := goTrim (goJoin p) }) ∧
    (∀ c p r, parseTitle c p = GoRes.ok r → c.tracks ≠ [] →
      r.albumTitle = c.albumTitle ∧
      r = { c with
        tracks := updateLast (fun t => { t with title := goTrim (goJoin p) }) c.tracks }) ∧
    (∀ c line r, parseLine c line = GoRes.ok r → c.tracks.length ≤ r.tracks.length) := by
  refine ⟨?_, ?_, parseLine_tracks_mono⟩
  · intro c p r h hnil
    exact (parseTitle_ok_spec c p r h).1 hnil
  · intro c p r h hne
    have hr := (parseTitle_ok_spec c p r h).2 hne
    exact ⟨by rw [hr], hr⟩

theorem c8_witness :
    ({ emptySheet with albumTitle := "An Album" } : CueSheet) =
      { emptySheet with albumTitle := goTrim (goJoin ["An", "Album"]) } :=
  c8_title_context_sensitivity.1 emptySheet ["An", "Album"]
    { emptySheet with albumTitle := "An Album" } (by decide) rfl

/-- C9: an accepted TRACK command always declares exactly the running
track count plus one (so declared numbers in a successful parse are the
contiguous sequence 1..N); a two-digit declared number different from
count+1 fails at that line with an error reporting the expected and
actual numbers; a successful parse never holds more than 99 tracks (the
largest two-digit number); and a failing line aborts the scan
immediately, wrapping the error with that line's number and text. -/
theorem c9_track_numbering_contiguous :
    (∀ c p r, parseTrack c p = GoRes.ok r →
      ∃ nr typ, p = [nr, typ] ∧
        goAtoi nr = some ((c.tracks.length : Int) + 1) ∧
        r.tracks.length = c.tracks.length + 1) ∧
    (∀ c nr typ k, goAtoi nr = some k → nr.length = 2 →
      k ≠ (c.tracks.length : Int) + 1 →
      parseTrack c [nr, typ] = GoRes.err (ParseError.wrap "invalid track number"
        (ParseError.expectedTrackNumber ((c.tracks.length : Int) + 1) k))) ∧
    (∀ input doc, Parse input = GoRes.ok doc → doc.tracks.length ≤ 99) ∧
    (∀ c n raw rest e, ¬ (goTrim raw = "" ∨ goTrim raw = "REM") →
      parseLine c (goTrim raw) = GoRes.err e →
      parseLines c n (raw :: rest) =
        GoRes.err (ParseError.lineContext (n + 1) (goTrim raw) e)) := by
  refine ⟨?_, ?_, parse_ok_tracks_le, ?_⟩
  · intro c p r h
    obtain ⟨nr, typ, hp, hAtoi, hlen, hr⟩ := parseTrack_ok_spec c p r h
    refine ⟨nr, typ, hp, hAtoi, ?_⟩
    rw [hr]
    simp
  · intro c nr typ k hk hlen hne
    have hnext : isNextTrack c nr = some (ParseError.expectedTrackNumber
        ((c.tracks.length : Int) + 1) k) := by
      unfold isNextTrack
      simp only [hk]
      rw [if_neg (by omega : ¬ nr.length ≠ 2), if_pos hne]
    have hv : validateParameters TrackCommand ([nr, typ] : List String).length = none := rfl
    unfold parseTrack
    simp only [hv, hnext]
  · intro c n raw rest e hskip hp
    rw [parseLines_cons, if_neg hskip]
    simp only [hp]

theorem c9_witness :
    parseTrack emptySheet ["02", "AUDIO"] =
      GoRes.err (ParseError.wrap "invalid track number"
        (ParseError.expectedTrackNumber ((emptySheet.tracks.length : Int) + 1) 2)) :=
  c9_track_numbering_contiguous.2.1 emptySheet "02" "AUDIO" 2 (by decide) (by decide)
    (by decide)

/-- C10: the track-number token must be written with exactly two
characters — whenever it parses as a number (even the numerically
correct next track number) but its length is not 2, the TRACK command
fails with the digit-count error reporting 2 expected and the actual
length. -/
theorem c10_track_number_needs_two_digits (c : CueSheet) (nr typ : String) (k : Int)
    (hk : goAtoi nr = some k) (hlen : nr.length ≠ 2) :
    parseTrack c [nr, typ] = GoRes.err (ParseError.wrap "invalid track number"
      (ParseError.expectedDigits 2 nr.length)) := by
  have hnext : isNextTrack c nr = some (ParseError.expectedDigits 2 nr.length) := by
    unfold isNextTrack
    simp only [hk]
    rw [if_pos hlen]
  have hv : validateParameters TrackCommand ([nr, typ] : List String).length = none := rfl
  unfold parseTrack
  simp only [hv, hnext]

theorem c10_witness :
    parseTrack emptySheet ["1", "AUDIO"] =
      GoRes.err (ParseError.wrap "invalid track number"
        (ParseError.expectedDigits 2 ("1" : String).length)) :=
  c10_track_number_needs_two_digits emptySheet "1" "AUDIO" 1 (by decide) (by decide)

end Cuesheetgo
